import Mathlib

/-!
Verification of the preconf block builder
(crates/rbuilder/src/building/builders/preconf_builder.rs and
crates/rbuilder/src/building/builders/dummy_order.rs).

The two source files are shallowly embedded below.  External collaborators
(the provider factory, the historical state provider, the EVM commit
primitives, the root-hash finalizer, the wall clock) are modelled as an
explicit environment of oracles (`Env`): each oracle field stands for the
sequence of answers the external component gives during one build.  The
historical state provider obtained from `history_by_block_hash(parent)` is a
consistent, immutable snapshot of chain state at the parent block, so it is
modelled as a pure function of the queried address.

Machine integers are modelled as `Nat` with explicit reductions modulo
2 ^ 256 (alloy U256, release-profile wrapping) and explicit checked
conversions to the 64- and 128-bit ranges (ruint `to()`, which aborts when
the value does not fit; the abort is modelled as `Option.none` and surfaces
as the `panicked` build outcome).
-/

/-- Release-profile U256 multiplication: wraps modulo 2 ^ 256. -/
def u256mul (a b : Nat) : Nat := a * b % 2 ^ 256

/-- Release-profile U256 addition: wraps modulo 2 ^ 256. -/
def u256add (a b : Nat) : Nat := (a + b) % 2 ^ 256

/-- Checked conversion to u64 (ruint `to::<u64>()`): aborts (none) when the
value does not fit. -/
def toU64 (a : Nat) : Option Nat := if a < 2 ^ 64 then some a else none

/-- Checked conversion to u128 (ruint `to::<u128>()`): aborts (none) when the
value does not fit. -/
def toU128 (a : Nat) : Option Nat := if a < 2 ^ 128 then some a else none

/-- Does the list start with the given pattern?  Helper for substring
matching. -/
def leadMatches : List Char → List Char → Bool
  | [], _ => true
  | _ :: _, [] => false
  | a :: as, b :: bs => a == b && leadMatches as bs

/-- Does the list contain the given pattern as a contiguous run? -/
def charsContain : List Char → List Char → Bool
  | [], pat => pat.isEmpty
  | c :: cs, pat => leadMatches pat (c :: cs) || charsContain cs pat

/-- Rust `str::contains(pat)`: substring containment, used by the adapter to
classify error messages. -/
def strContains (s pat : String) : Bool := charsContain s.data pat.data

/-- A signer (utils::Signer): we record only its address; key material and
ECDSA signing are external cryptography, out of scope per the spec. -/
structure Signer where
  address : Nat
deriving DecidableEq, Repr

/-- The payload of an EIP-1559 transaction as filled in by the filler
factory (reth TxEip1559; fields not set by the factory are defaulted and
not modelled).  The source field `to: TransactionKind::Call(receiver)` is
rendered as `to_addr` because `to` is reserved in Lean. -/
structure TxEip1559 where
  chain_id : Nat
  nonce : Nat
  gas_limit : Nat
  max_fee_per_gas : Nat
  max_priority_fee_per_gas : Nat
  to_addr : Nat
  value : Nat
deriving DecidableEq, Repr

/-- A recovered signed transaction: the payload plus the recovered sender.
Signing itself is external cryptography and never fails per the spec
("Signing failure is fatal, not a per-call error"). -/
structure SignedTx where
  tx : TxEip1559
  sender : Nat
deriving DecidableEq, Repr

/-- DummyOrderFactory (dummy_order.rs): chain id, signer, running nonce
(u64) and fixed receiver. -/
structure DummyOrderFactory where
  chain_id : Nat
  signer : Signer
  nonce : Nat
  receiver : Nat
deriving DecidableEq, Repr

/-- DummyOrderFactory::new. -/
def DummyOrderFactory.new (signer : Signer) (chain_id nonce receiver : Nat) :
    DummyOrderFactory :=
  { chain_id := chain_id, signer := signer, nonce := nonce, receiver := receiver }

/-- DummyOrderFactory::generate_tx: gas limit is `basefee * 21000 + 5000`
computed in U256 and then converted with the checked `to::<u64>()`;
max fee is `basefee` converted with the checked `to::<u128>()`; the
priority fee is zero; the value is the fixed 2 * 10^15 wei transfer.
A failed checked conversion aborts the process (modelled as none). -/
def DummyOrderFactory.generate_tx (f : DummyOrderFactory) (basefee : Nat) :
    Option SignedTx :=
  match toU64 (u256add (u256mul basefee 21000) 5000), toU128 basefee with
  | some g, some mf =>
      some { tx := { chain_id := f.chain_id, nonce := f.nonce, gas_limit := g,
                     max_fee_per_gas := mf, max_priority_fee_per_gas := 0,
                     to_addr := f.receiver, value := 2000000000000000 },
             sender := f.signer.address }
  | _, _ => none

/-- DummyOrderFactory::increase_nonce: `self.nonce += 1` on a u64
(release-profile wrapping). -/
def DummyOrderFactory.increase_nonce (f : DummyOrderFactory) : DummyOrderFactory :=
  { f with nonce := (f.nonce + 1) % 2 ^ 64 }

/-- The EVM block environment portion of the build context (revm BlockEnv):
only the fields the builder reads are modelled. -/
structure BlockEnv where
  number : Nat
  coinbase : Nat
  basefee : Nat
deriving DecidableEq, Repr

/-- Payload attributes portion of the build context: parent block hash and
the protocol-suggested fee recipient. -/
structure PayloadAttributes where
  parent : Nat
  suggested_fee_recipient : Nat
deriving DecidableEq, Repr

/-- BlockBuildingContext: the slot build context held by the orchestrator.
`chain_id` stands for `ctx.chain_spec.chain().id()`; `builder_signer` is
the separate builder-payment signer address, when one is configured. -/
structure BlockBuildingContext where
  block_env : BlockEnv
  attributes : PayloadAttributes
  chain_id : Nat
  builder_signer : Option Nat
deriving DecidableEq, Repr

/-- Modelled from the spec: `BlockBuildingContext::modify_use_suggested_fee_recipient_as_coinbase`
lives in building/mod.rs, which is not among the provided sources.  Per the
spec it normalizes the coinbase to the protocol-suggested fee recipient
when a separate builder-payment recipient was configured, dropping the
builder signer. -/
def BlockBuildingContext.modify_use_suggested_fee_recipient_as_coinbase
    (ctx : BlockBuildingContext) : BlockBuildingContext :=
  match ctx.builder_signer with
  | some _ =>
      { ctx with
        block_env := { ctx.block_env with coinbase := ctx.attributes.suggested_fee_recipient },
        builder_signer := none }
  | none => ctx

/-- An opaque state-read cache instance (reth CachedReads).  Only the
identity of the instance matters for the claims, so it carries a tag.
`Inhabited` supplies `CachedReads::default()`, the empty cache. -/
structure CachedReads where
  tag : Nat
deriving DecidableEq, Repr

instance : Inhabited CachedReads := ⟨⟨0⟩⟩

/-- The outcome of a successful `commit_tx`: the fields the builder reads
from the execution result (gas used; the rest of the inclusion record is
opaque). -/
structure CommitOk where
  gas_used : Nat
deriving DecidableEq, Repr

/-- An error value. eyre errors are classified by the adapter through their
rendered message, so the message is the whole model. -/
structure Err where
  msg : String
deriving DecidableEq, Repr

/-- A per-included-order record of the build trace. -/
structure IncludedOrder where
  gas_used : Nat
deriving DecidableEq, Repr

/-- BuiltBlockTrace: per-included-order records, the aggregate profit
(bid_value) and the fill/finalize timings. -/
structure BuiltBlockTrace where
  included_orders : List IncludedOrder
  bid_value : Nat
  fill_time : Nat
  finalize_time : Nat
deriving DecidableEq, Repr

/-- Modelled from the spec: `BuiltBlockTrace::new` (building/mod.rs, not
among the provided sources) starts an empty trace. -/
def BuiltBlockTrace.new : BuiltBlockTrace :=
  { included_orders := [], bid_value := 0, fill_time := 0, finalize_time := 0 }

/-- Modelled from the spec: `BuiltBlockTrace::add_included_order`
(building/mod.rs, not among the provided sources) appends one
per-included-order record to the trace. -/
def BuiltBlockTrace.add_included_order (tr : BuiltBlockTrace) (res : CommitOk) :
    BuiltBlockTrace :=
  { tr with included_orders := tr.included_orders ++ [⟨res.gas_used⟩] }

/-- The result of `PartialBlock::finalize`: the sealed block (opaque tag),
its gas/blob accounting and the state-read cache captured for reuse. -/
structure FinalizedBlock where
  sealed_block : Nat
  gas_used : Nat
  blob_count : Nat
  cached_reads : CachedReads
deriving DecidableEq, Repr

/-- The Block artifact handed to the sink. -/
structure Block where
  trace : BuiltBlockTrace
  sealed_block : Nat
  blob_count : Nat
  builder_name : String
deriving DecidableEq, Repr

/-- PreconfBuilderConfig.  `dummy_signer` stands for the signer parsed once
from `dummy_tx_private_key` (`PreconfBuilderConfig::dummy_signer`); key
parsing is external cryptography and a fatal construction-time failure,
out of scope per the spec. -/
structure PreconfBuilderConfig where
  coinbase_payment : Bool
  build_duration_deadline_ms : Option Nat
  dummy_signer : Signer
deriving DecidableEq, Repr

/-- The environment of external collaborators for one `build_block` call.
Each field is the oracle answer (or answer sequence) of one external call
site, in the order the source performs them:

- `health_check`: `check_provider_factory_health` (some = the error).
- `history_view`: `provider_factory.history_by_block_hash(parent)`
  (some = the error establishing the view).
- `account_balance`: `state_provider.account_balance(addr)` on the
  historical snapshot; the snapshot is an immutable consistent view of the
  parent state, so it is a pure function of the address, answering the
  same for the read before and the read after the fill loop.
- `pre_block`: `partial_block.pre_block_call` (some = the error).
- `state_nonce`: `state.nonce(dummy_signer.address)`, the nonce of the
  filler sender read from live state.
- `commit`: `partial_block.commit_tx` at the i-th loop iteration, given
  the generated transaction.
- `elapsed`: `build_start.elapsed()` in nanoseconds, sampled at the
  deadline check at the top of the i-th loop iteration.
- `finalize`: `partial_block.finalize(...)`.
- `build_elapsed` / `finalize_elapsed`: the post-loop elapsed samples
  recorded into the trace timings. -/
structure Env where
  health_check : Option Err
  history_view : Option Err
  account_balance : Nat → Except Err (Option Nat)
  pre_block : Option Err
  state_nonce : Except Err Nat
  commit : Nat → SignedTx → Except Err CommitOk
  elapsed : Nat → Nat
  finalize : Except Err FinalizedBlock
  build_elapsed : Nat
  finalize_elapsed : Nat

/-- Modelled from the spec: `finalize_block_execution` (building/builders/
mod.rs, not among the provided sources).  Per the spec it submits the
profit signal to the bid oracle; on acceptance it records the profit as
the bid value of the trace and reports that the block should be finalized, on
rejection it reports that finalization should be skipped.  The payout
transaction argument is `None` at this call site and is not modelled. -/
def finalize_block_execution (bidder : Nat → Bool) (tr : BuiltBlockTrace)
    (profit : Nat) : Bool × BuiltBlockTrace :=
  if bidder profit then (true, { tr with bid_value := profit }) else (false, tr)

/-- PreconfBuilderContext: the per-slot orchestrator state.  The opaque
handles (provider factory, root-hash task pool, root-hash mode, the boxed
slot bidder) live in `Env` / the `bidder` argument and are not state. -/
structure PreconfBuilderContext where
  builder_name : String
  ctx : BlockBuildingContext
  cached_reads : Option CachedReads
  failed_orders : List Nat
  order_attempts : List (Nat × Nat)
  config : PreconfBuilderConfig
deriving DecidableEq, Repr

/-- PreconfBuilderContext::new: fresh scratchpad, and no held cache. -/
def PreconfBuilderContext.new (builder_name : String)
    (ctx : BlockBuildingContext) (config : PreconfBuilderConfig) :
    PreconfBuilderContext :=
  { builder_name := builder_name, ctx := ctx, cached_reads := none,
    failed_orders := [], order_attempts := [], config := config }

/-- One entry of the per-attempt observation log.  The loop body ends with a
`trace!(success, order_commit_time_mus, gas_used, ..., "Executed order")`
event per attempted transaction; the record models that event plus the
nonce of the transaction generated for the attempt. -/
structure AttemptRecord where
  nonce : Nat
  success : Bool
  gas_used : Nat
deriving DecidableEq, Repr

/-- Ghost observations of one `build_block` call: the cache instance used to
seed the block state (none when that point was never reached), the
per-attempt log, and the profit signal handed to
`finalize_block_execution` (none when that point was never reached). -/
structure BuildObs where
  seeded_cache : Option CachedReads := none
  attempt_log : List AttemptRecord := []
  profit_signal : Option Nat := none
deriving DecidableEq, Repr

/-- The outcome of one `build_block` call: `ok` mirrors the source type
`eyre::Result<Option<Block>>` (with `ok none` the explicit "no block
produced" result); `panicked` models a process abort from a failed checked
integer conversion inside filler generation. -/
inductive BuildResult where
  | panicked : BuildResult
  | errored : Err → BuildResult
  | ok : Option Block → BuildResult
deriving DecidableEq, Repr

/-- Result bundle of one `build_block` call: the returned value, the
orchestrator state after the call, and the ghost observations. -/
structure BuildOut where
  result : BuildResult
  post : PreconfBuilderContext
  obs : BuildObs
deriving DecidableEq, Repr

/-- The deadline check at the top of each loop iteration
(preconf_builder.rs lines 141-145): break when a deadline is configured and
the elapsed build time strictly exceeds it. -/
def deadlineExpired (env : Env) (deadline_ms : Option Nat) (i : Nat) : Bool :=
  match deadline_ms with
  | some d => decide (env.elapsed i > d * 1000000)
  | none => false

/-- The `for _ in 0..10` fill loop (preconf_builder.rs lines 140-171).
`fuel` is the remaining iteration budget, `i` the current iteration index.
Each iteration first evaluates the deadline (break when
`build_start.elapsed() > deadline`, sampled through `env.elapsed i`), then
generates one filler transaction at the block basefee, commits it, appends
the inclusion record to the trace on success, and always advances the
factory nonce.  None models the abort of a failed checked conversion in
`generate_tx`. -/
def fillLoop (env : Env) (basefee : Nat) (deadline_ms : Option Nat) :
    Nat → Nat → DummyOrderFactory → BuiltBlockTrace → List AttemptRecord →
    Option (DummyOrderFactory × BuiltBlockTrace × List AttemptRecord)
  | 0, _, fac, tr, log => some (fac, tr, log)
  | fuel + 1, i, fac, tr, log =>
    if deadlineExpired env deadline_ms i then
      some (fac, tr, log)
    else
      match fac.generate_tx basefee with
      | none => none
      | some tx =>
        match env.commit i tx with
        | Except.ok res =>
            fillLoop env basefee deadline_ms fuel (i + 1) fac.increase_nonce
              (tr.add_included_order res)
              (log ++ [{ nonce := tx.tx.nonce, success := true, gas_used := res.gas_used }])
        | Except.error _ =>
            fillLoop env basefee deadline_ms fuel (i + 1) fac.increase_nonce tr
              (log ++ [{ nonce := tx.tx.nonce, success := false, gas_used := 0 }])

/-- The profit signal computation (preconf_builder.rs lines 177-179):
`fee_recipient_balance_after.checked_sub(fee_recipient_balance_before)
.unwrap_or_default()` on U256 values. -/
def feeRecipientBalanceDiff (balance_before balance_after : Nat) : Nat :=
  (if balance_before ≤ balance_after then some (balance_after - balance_before)
   else none).getD 0

/-- PreconfBuilderContext::build_block (preconf_builder.rs lines 99-259).
The call sequence mirrors the source: health check; clone and normalize the
context; clear the scratchpad; establish the historical view of the parent;
read the balance of the fee recipient; take the held cache (leaving none) and
seed the block state with it (or with the default empty cache); pre-block
call; read the nonce of the filler sender from live state; run the fill loop;
re-read the balance of the fee recipient from the same historical snapshot;
clamp the difference; hand it to `finalize_block_execution`; on rejection
return `Ok(None)`; otherwise finalize, store the captured cache and return
the block.  Telemetry emission and the per-order timestamp bookkeeping of
`update_orders_timestamps_after_block_sealed` touch only fields and sinks
not modelled here. -/
def PreconfBuilderContext.build_block (s : PreconfBuilderContext) (env : Env)
    (bidder : Nat → Bool) : BuildOut :=
  match env.health_check with
  | some e => { result := .errored e, post := s, obs := {} }
  | none =>
    let ctx := s.ctx.modify_use_suggested_fee_recipient_as_coinbase
    let s1 := { s with failed_orders := [], order_attempts := [] }
    match env.history_view with
    | some e => { result := .errored e, post := s1, obs := {} }
    | none =>
      match env.account_balance ctx.attributes.suggested_fee_recipient with
      | Except.error e => { result := .errored e, post := s1, obs := {} }
      | Except.ok bal_before =>
        let fee_recipient_balance_before := bal_before.getD 0
        let seeded := s1.cached_reads.getD default
        let s2 := { s1 with cached_reads := none }
        let obs0 : BuildObs := { seeded_cache := some seeded }
        match env.pre_block with
        | some e => { result := .errored e, post := s2, obs := obs0 }
        | none =>
          match env.state_nonce with
          | Except.error e => { result := .errored e, post := s2, obs := obs0 }
          | Except.ok current_nonce =>
            let fac := DummyOrderFactory.new s2.config.dummy_signer ctx.chain_id
              current_nonce ctx.block_env.coinbase
            match fillLoop env ctx.block_env.basefee
                s2.config.build_duration_deadline_ms 10 0 fac
                BuiltBlockTrace.new [] with
            | none => { result := .panicked, post := s2, obs := obs0 }
            | some (_, tr, log) =>
              let obs1 := { obs0 with attempt_log := log }
              match env.account_balance ctx.attributes.suggested_fee_recipient with
              | Except.error e => { result := .errored e, post := s2, obs := obs1 }
              | Except.ok bal_after =>
                let fee_recipient_balance_after := bal_after.getD 0
                let diff := feeRecipientBalanceDiff fee_recipient_balance_before
                  fee_recipient_balance_after
                let obs2 := { obs1 with profit_signal := some diff }
                match finalize_block_execution bidder tr diff with
                | (false, _) => { result := .ok none, post := s2, obs := obs2 }
                | (true, tr2) =>
                  match env.finalize with
                  | Except.error e => { result := .errored e, post := s2, obs := obs2 }
                  | Except.ok fb =>
                    let s3 := { s2 with cached_reads := some fb.cached_reads }
                    let tr3 := { tr2 with fill_time := env.build_elapsed,
                                          finalize_time := env.finalize_elapsed }
                    { result := .ok (some
                        { trace := tr3,
                          sealed_block := fb.sealed_block,
                          blob_count := fb.blob_count,
                          builder_name := s2.builder_name }),
                      post := s3, obs := obs2 }

/-- The error-message pattern whose presence makes the adapter cancel the
slot (preconf_builder.rs line 330). -/
def consistentViewPat : String := "failed to initialize consistent view"

/-- The error-message pattern marking a "not profitable" rejection
(preconf_builder.rs line 340). -/
def profitTooLowPat : String := "Profit too low"

/-- Severity levels of the tracing macros used by the adapter. -/
inductive LogLevel where
  | traceLvl : LogLevel
  | debugLvl : LogLevel
  | infoLvl : LogLevel
  | warnLvl : LogLevel
  | errorLvl : LogLevel
deriving DecidableEq, Repr

/-- One log event emitted by the adapter. -/
structure LogEvent where
  level : LogLevel
  msg : String
deriving DecidableEq, Repr

/-- The externally visible effects of one adapter `run` invocation: blocks
pushed to the result sink, the number of times the shared cancellation
signal was set, and the log events the adapter itself emitted.  (The
logging done inside `build_block` itself is info/trace level and is
not part of the adapter events.) -/
structure RunResult where
  pushed : List Block
  cancel_count : Nat
  logs : List LogEvent
deriving DecidableEq, Repr

/-- run_preconf_builder (preconf_builder.rs lines 307-349), reached through
`PreconfBuilderAlgorithm::build_blocks`: builds one fresh orchestrator via
`PreconfBuilderContext::new` (so with no held cache), performs exactly one
`build_block`, and dispatches the outcome: a produced block goes to the
sink; `Ok(None)` is dropped silently; an error is classified by substring
matching on its rendered message — "failed to initialize consistent view"
cancels the slot (with a debug-level log), otherwise anything not
containing "Profit too low" is logged at error severity when
`is_provider_factory_health_error` (an external classifier, modelled as
the oracle `is_health_error`) holds and at warn severity otherwise, and a
"Profit too low" error is dropped silently.  `none` propagates a process
abort out of `build_block`. -/
def run_preconf_builder (ctx0 : BlockBuildingContext) (builder_name : String)
    (config : PreconfBuilderConfig) (env : Env) (bidder : Nat → Bool)
    (is_health_error : Err → Bool) : Option RunResult :=
  let builder := PreconfBuilderContext.new builder_name ctx0 config
  match (builder.build_block env bidder).result with
  | .panicked => none
  | .ok (some block) =>
      some { pushed := [block], cancel_count := 0, logs := [] }
  | .ok none =>
      some { pushed := [], cancel_count := 0, logs := [] }
  | .errored e =>
      if strContains e.msg consistentViewPat then
        some { pushed := [], cancel_count := 1,
               logs := [{ level := .debugLvl,
                          msg := "cancelling slot: cannot build on this head" }] }
      else if !strContains e.msg profitTooLowPat then
        if is_health_error e then
          some { pushed := [], cancel_count := 0,
                 logs := [{ level := .errorLvl,
                            msg := "Cancelling building due to provider factory error" }] }
        else
          some { pushed := [], cancel_count := 0,
                 logs := [{ level := .warnLvl, msg := "Error filling orders" }] }
      else
        some { pushed := [], cancel_count := 0, logs := [] }

/-- Fixture: the filler signer of the concrete scenarios (address 77). -/
def sigD : Signer := { address := 77 }

/-- Fixture: a concrete slot build context.  The suggested fee recipient
(address 5) differs from the filler sender (address 77), and a separate
builder-payment signer is configured so the coinbase normalization is
exercised. -/
def ctxA : BlockBuildingContext :=
  { block_env := { number := 1, coinbase := 9, basefee := 7 },
    attributes := { parent := 100, suggested_fee_recipient := 5 },
    chain_id := 1, builder_signer := some 42 }

/-- Fixture: configuration with no deadline. -/
def cfgA : PreconfBuilderConfig :=
  { coinbase_payment := false, build_duration_deadline_ms := none,
    dummy_signer := sigD }

/-- Fixture: configuration with a 5 ms deadline. -/
def cfgDl5 : PreconfBuilderConfig :=
  { cfgA with build_duration_deadline_ms := some 5 }

/-- Fixture: configuration with a 0 ms deadline. -/
def cfgZero : PreconfBuilderConfig :=
  { cfgA with build_duration_deadline_ms := some 0 }

/-- Fixture: an environment in which every external call succeeds: the fee
recipient holds 1000 wei on the parent snapshot, the filler sender nonce
reads as 3, every commit succeeds using 21000 gas, the clock advances one
nanosecond per loop iteration, and finalize captures cache instance 9. -/
def envOk : Env :=
  { health_check := none, history_view := none,
    account_balance := fun _ => Except.ok (some 1000),
    pre_block := none, state_nonce := Except.ok 3,
    commit := fun _ _ => Except.ok { gas_used := 21000 },
    elapsed := fun i => i + 1,
    finalize := Except.ok { sealed_block := 1, gas_used := 210000,
                            blob_count := 0, cached_reads := { tag := 9 } },
    build_elapsed := 50, finalize_elapsed := 60 }

/-- Fixture: a bid oracle that declines every profit signal. -/
def bidFalse : Nat → Bool := fun _ => false

/-- Fixture: a bid oracle that accepts every profit signal. -/
def bidTrue : Nat → Bool := fun _ => true

/-- Fixture: a bid oracle that accepts exactly the positive profit
signals. -/
def bidPos : Nat → Bool := fun p => decide (0 < p)

/-- Fixture: an infrastructure-error classifier that never matches. -/
def predFalse : Err → Bool := fun _ => false

/-- Fixture: builder name used by the concrete scenarios. -/
def nameB : String := "builder-a"

/-- Fixture: a fresh orchestrator for the concrete scenarios. -/
def sFresh : PreconfBuilderContext := PreconfBuilderContext.new nameB ctxA cfgA

/-- Fixture: an orchestrator that holds cache instance 5 before the call. -/
def sHeld : PreconfBuilderContext :=
  { sFresh with cached_reads := some { tag := 5 } }

/-- Fixture: a fresh orchestrator with the 5 ms deadline. -/
def sDl5 : PreconfBuilderContext := PreconfBuilderContext.new nameB ctxA cfgDl5

/-- Fixture: a fresh orchestrator with the 0 ms deadline. -/
def sZero : PreconfBuilderContext := PreconfBuilderContext.new nameB ctxA cfgZero

/-- Fixture: an error carrying exactly the consistent-view pattern. -/
def errCV : Err := { msg := consistentViewPat }

/-- Fixture: an error whose message carries the profit-too-low pattern but
not the consistent-view pattern. -/
def errPL : Err := { msg := "insufficient funds: Profit too low" }

/-- Fixture: an error whose message carries both the consistent-view
pattern and the profit-too-low pattern. -/
def errBoth : Err :=
  { msg := "failed to initialize consistent view: Profit too low" }

/-- Fixture: environment whose health check fails with the consistent-view
error. -/
def envCV : Env := { envOk with health_check := some errCV }

/-- Fixture: environment whose health check fails with the profit-too-low
error. -/
def envPL : Env := { envOk with health_check := some errPL }

/-- Fixture: environment whose health check fails with the combined
error. -/
def envBoth : Env := { envOk with health_check := some errBoth }

/-- Fixture: the adapter effects expected on the cancellation path. -/
def rCV : RunResult :=
  { pushed := [], cancel_count := 1,
    logs := [{ level := .debugLvl,
               msg := "cancelling slot: cannot build on this head" }] }

/-- The nonces of the attempts performed by the fill loop when it starts
from nonce `n`: the first attempt uses `n` as read, each later attempt the
u64-incremented successor. -/
def noncesFrom (n : Nat) : Nat → List Nat
  | 0 => []
  | k + 1 => n :: noncesFrom ((n + 1) % 2 ^ 64) k

/-- Fixture: a concrete filler factory for the generator bounds. -/
def facBig : DummyOrderFactory :=
  { chain_id := 1, signer := sigD, nonce := 0, receiver := 9 }

/-- Coinbase normalization does not change the payload attributes. -/
theorem modify_coinbase_attributes (ctx : BlockBuildingContext) :
    ctx.modify_use_suggested_fee_recipient_as_coinbase.attributes = ctx.attributes := by
  unfold BlockBuildingContext.modify_use_suggested_fee_recipient_as_coinbase
  cases ctx.builder_signer <;> rfl

/-- Coinbase normalization does not change the basefee. -/
theorem modify_coinbase_basefee (ctx : BlockBuildingContext) :
    ctx.modify_use_suggested_fee_recipient_as_coinbase.block_env.basefee =
      ctx.block_env.basefee := by
  unfold BlockBuildingContext.modify_use_suggested_fee_recipient_as_coinbase
  cases ctx.builder_signer <;> rfl

/-- The clamped balance difference of a value against itself is zero. -/
theorem feeRecipientBalanceDiff_self (a : Nat) : feeRecipientBalanceDiff a a = 0 := by
  simp [feeRecipientBalanceDiff]

/-- When the u64 range accommodates the gas-limit heuristic, filler
generation succeeds and its fields are exactly the heuristic values. -/
theorem generate_tx_of_fits (f : DummyOrderFactory) (b : Nat)
    (h : b * 21000 + 5000 < 2 ^ 64) :
    f.generate_tx b = some
      { tx := { chain_id := f.chain_id, nonce := f.nonce,
                gas_limit := b * 21000 + 5000, max_fee_per_gas := b,
                max_priority_fee_per_gas := 0, to_addr := f.receiver,
                value := 2000000000000000 },
        sender := f.signer.address } := by
  have hb256 : b * 21000 + 5000 < 2 ^ 256 := by
    calc b * 21000 + 5000 < 2 ^ 64 := h
    _ < 2 ^ 256 := by norm_num
  have hmul : u256mul b 21000 = b * 21000 := by
    unfold u256mul
    exact Nat.mod_eq_of_lt (by omega)
  have hadd : u256add (b * 21000) 5000 = b * 21000 + 5000 := by
    unfold u256add
    exact Nat.mod_eq_of_lt hb256
  have hb128 : b < 2 ^ 128 := by
    have hble : b ≤ b * 21000 + 5000 := by nlinarith
    have : (2 : Nat) ^ 64 ≤ 2 ^ 128 := by norm_num
    omega
  unfold DummyOrderFactory.generate_tx
  rw [hmul, hadd]
  unfold toU64 toU128
  rw [if_pos h, if_pos hb128]

/-- The fill loop appends at most `fuel` attempt records. -/
theorem fillLoop_log_len (env : Env) (bf : Nat) (dl : Option Nat) :
    ∀ (fuel i : Nat) (fac : DummyOrderFactory) (tr : BuiltBlockTrace)
      (log : List AttemptRecord)
      (out : DummyOrderFactory × BuiltBlockTrace × List AttemptRecord),
      fillLoop env bf dl fuel i fac tr log = some out →
      out.2.2.length ≤ log.length + fuel := by
  intro fuel
  induction fuel with
  | zero =>
    intro i fac tr log out h
    simp only [fillLoop] at h
    cases h
    simp
  | succ n ih =>
    intro i fac tr log out h
    simp only [fillLoop] at h
    split at h
    · cases h
      simp
    · cases hg : fac.generate_tx bf with
      | none => rw [hg] at h; cases h
      | some tx =>
        rw [hg] at h
        dsimp only at h
        cases hc : env.commit i tx with
        | ok res =>
          rw [hc] at h
          have := ih (i + 1) fac.increase_nonce (tr.add_included_order res)
            (log ++ [{ nonce := tx.tx.nonce, success := true, gas_used := res.gas_used }])
            out h
          simp at this
          omega
        | error e =>
          rw [hc] at h
          have := ih (i + 1) fac.increase_nonce tr
            (log ++ [{ nonce := tx.tx.nonce, success := false, gas_used := 0 }])
            out h
          simp at this
          omega

/-- The generated filler transaction carries exactly the factory nonce. -/
theorem generate_tx_nonce (f : DummyOrderFactory) (b : Nat) (tx : SignedTx)
    (h : f.generate_tx b = some tx) : tx.tx.nonce = f.nonce := by
  unfold DummyOrderFactory.generate_tx at h
  split at h
  · cases h
    rfl
  · cases h

/-- Every attempt performed under a configured deadline starts no later
than the deadline: the check at the top of iteration `i + t` passed. -/
theorem fillLoop_deadline (env : Env) (bf d : Nat) :
    ∀ (fuel i : Nat) (fac : DummyOrderFactory) (tr : BuiltBlockTrace)
      (log : List AttemptRecord)
      (out : DummyOrderFactory × BuiltBlockTrace × List AttemptRecord),
      fillLoop env bf (some d) fuel i fac tr log = some out →
      ∀ t, log.length + t < out.2.2.length → env.elapsed (i + t) ≤ d * 1000000 := by
  intro fuel
  induction fuel with
  | zero =>
    intro i fac tr log out h t ht
    simp only [fillLoop] at h
    cases h
    simp at ht
  | succ n ih =>
    intro i fac tr log out h t ht
    simp only [fillLoop] at h
    split at h
    case isTrue =>
      cases h
      simp at ht
    case isFalse hdl =>
      have hle : env.elapsed i ≤ d * 1000000 := by
        simp only [deadlineExpired, decide_eq_true_eq] at hdl
        omega
      cases hg : fac.generate_tx bf with
      | none => rw [hg] at h; cases h
      | some tx =>
        rw [hg] at h
        dsimp only at h
        cases hc : env.commit i tx with
        | ok res =>
          rw [hc] at h
          have hrec := ih (i + 1) fac.increase_nonce (tr.add_included_order res)
            (log ++ [{ nonce := tx.tx.nonce, success := true, gas_used := res.gas_used }])
            out h
          cases t with
          | zero => simpa using hle
          | succ t2 =>
            simp only [List.length_append, List.length_cons, List.length_nil] at hrec
            have := hrec t2 (by omega)
            have heq : i + 1 + t2 = i + (t2 + 1) := by omega
            rw [heq] at this
            exact this
        | error e =>
          rw [hc] at h
          have hrec := ih (i + 1) fac.increase_nonce tr
            (log ++ [{ nonce := tx.tx.nonce, success := false, gas_used := 0 }])
            out h
          cases t with
          | zero => simpa using hle
          | succ t2 =>
            simp only [List.length_append, List.length_cons, List.length_nil] at hrec
            have := hrec t2 (by omega)
            have heq : i + 1 + t2 = i + (t2 + 1) := by omega
            rw [heq] at this
            exact this

/-- The attempt log grows by the successive factory nonces: the attempts
recorded by one run of the fill loop used the starting nonce and its
u64-incremented successors, independent of per-attempt success. -/
theorem fillLoop_nonce_log (env : Env) (bf : Nat) (dl : Option Nat) :
    ∀ (fuel i : Nat) (fac : DummyOrderFactory) (tr : BuiltBlockTrace)
      (log : List AttemptRecord)
      (out : DummyOrderFactory × BuiltBlockTrace × List AttemptRecord),
      fillLoop env bf dl fuel i fac tr log = some out →
      ∃ k, k ≤ fuel ∧
        out.2.2.map AttemptRecord.nonce =
          log.map AttemptRecord.nonce ++ noncesFrom fac.nonce k := by
  intro fuel
  induction fuel with
  | zero =>
    intro i fac tr log out h
    simp only [fillLoop] at h
    cases h
    exact ⟨0, Nat.le_refl 0, by simp [noncesFrom]⟩
  | succ n ih =>
    intro i fac tr log out h
    simp only [fillLoop] at h
    split at h
    case isTrue =>
      cases h
      exact ⟨0, Nat.zero_le _, by simp [noncesFrom]⟩
    case isFalse =>
      cases hg : fac.generate_tx bf with
      | none => rw [hg] at h; cases h
      | some tx =>
        rw [hg] at h
        dsimp only at h
        have hnonce := generate_tx_nonce fac bf tx hg
        cases hc : env.commit i tx with
        | ok res =>
          rw [hc] at h
          obtain ⟨k, hk, hmap⟩ := ih (i + 1) fac.increase_nonce
            (tr.add_included_order res)
            (log ++ [{ nonce := tx.tx.nonce, success := true, gas_used := res.gas_used }])
            out h
          refine ⟨k + 1, by omega, ?_⟩
          rw [hmap]
          simp [DummyOrderFactory.increase_nonce, noncesFrom, hnonce]
        | error e =>
          rw [hc] at h
          obtain ⟨k, hk, hmap⟩ := ih (i + 1) fac.increase_nonce tr
            (log ++ [{ nonce := tx.tx.nonce, success := false, gas_used := 0 }])
            out h
          refine ⟨k + 1, by omega, ?_⟩
          rw [hmap]
          simp [DummyOrderFactory.increase_nonce, noncesFrom, hnonce]

/-- Reading the successive-nonce list without wraparound. -/
theorem noncesFrom_getD :
    ∀ (k n i : Nat), i < k → n + i < 2 ^ 64 →
      (noncesFrom n k).getD i 0 = n + i := by
  intro k
  induction k with
  | zero =>
    intro n i h
    omega
  | succ k2 ih =>
    intro n i hik hlt
    cases i with
    | zero => simp [noncesFrom]
    | succ i2 =>
      have h1 : (n + 1) % 2 ^ 64 = n + 1 := Nat.mod_eq_of_lt (by omega)
      simp only [noncesFrom, List.getD_cons_succ]
      rw [h1, ih (n + 1) i2 (by omega) (by omega)]
      omega

/-- When the gas-limit heuristic fits u64, the fill loop never aborts. -/
theorem fillLoop_total (env : Env) (bf : Nat) (dl : Option Nat)
    (hb : bf * 21000 + 5000 < 2 ^ 64) :
    ∀ (fuel i : Nat) (fac : DummyOrderFactory) (tr : BuiltBlockTrace)
      (log : List AttemptRecord),
      ∃ out, fillLoop env bf dl fuel i fac tr log = some out := by
  intro fuel
  induction fuel with
  | zero =>
    intro i fac tr log
    exact ⟨(fac, tr, log), by simp [fillLoop]⟩
  | succ n ih =>
    intro i fac tr log
    simp only [fillLoop]
    split
    · exact ⟨(fac, tr, log), rfl⟩
    · rw [generate_tx_of_fits fac bf hb]
      dsimp only
      cases hc : env.commit i _ with
      | ok res => exact ih (i + 1) _ _ _
      | error e => exact ih (i + 1) _ _ _

/-- With no deadline, all commits succeeding and the heuristic fitting u64,
the fill loop performs exactly `fuel` attempts and includes all of them. -/
theorem fillLoop_all_ok (env : Env) (bf : Nat)
    (hb : bf * 21000 + 5000 < 2 ^ 64)
    (hc : ∀ (j : Nat) (tx : SignedTx), ∃ r, env.commit j tx = Except.ok r) :
    ∀ (fuel i : Nat) (fac : DummyOrderFactory) (tr : BuiltBlockTrace)
      (log : List AttemptRecord),
      ∃ fac2 tr2 log2,
        fillLoop env bf none fuel i fac tr log = some (fac2, tr2, log2) ∧
        tr2.included_orders.length = tr.included_orders.length + fuel := by
  intro fuel
  induction fuel with
  | zero =>
    intro i fac tr log
    exact ⟨fac, tr, log, by simp [fillLoop], by simp⟩
  | succ n ih =>
    intro i fac tr log
    simp only [fillLoop, deadlineExpired, Bool.false_eq_true, if_false]
    rw [generate_tx_of_fits fac bf hb]
    dsimp only
    obtain ⟨r, hr⟩ := hc i _
    rw [hr]
    obtain ⟨fac2, tr2, log2, heq, hlen⟩ := ih (i + 1) fac.increase_nonce
      (tr.add_included_order r) _
    refine ⟨fac2, tr2, log2, heq, ?_⟩
    simp [BuiltBlockTrace.add_included_order] at hlen
    omega

/-- Whenever a build seeds a block state with a cache instance, that
instance is the one the orchestrator held at the take, or the default
empty cache when none was held. -/
theorem build_seeded_cache (s : PreconfBuilderContext) (env : Env)
    (bidder : Nat → Bool) :
    ∀ c, (s.build_block env bidder).obs.seeded_cache = some c →
      c = s.cached_reads.getD default := by
  intro c
  unfold PreconfBuilderContext.build_block
  cases env.health_check with
  | some e => intro h; simp at h
  | none =>
    dsimp only
    cases env.history_view with
    | some e => intro h; simp at h
    | none =>
      dsimp only
      cases env.account_balance
          s.ctx.modify_use_suggested_fee_recipient_as_coinbase.attributes.suggested_fee_recipient with
      | error e => intro h; simp at h
      | ok bal =>
        dsimp only
        cases env.pre_block with
        | some e => intro h; exact (Option.some.inj h).symm
        | none =>
          dsimp only
          cases env.state_nonce with
          | error e => intro h; exact (Option.some.inj h).symm
          | ok n0 =>
            dsimp only
            cases hf : fillLoop env
                s.ctx.modify_use_suggested_fee_recipient_as_coinbase.block_env.basefee
                s.config.build_duration_deadline_ms 10 0
                (DummyOrderFactory.new s.config.dummy_signer
                  s.ctx.modify_use_suggested_fee_recipient_as_coinbase.chain_id n0
                  s.ctx.modify_use_suggested_fee_recipient_as_coinbase.block_env.coinbase)
                BuiltBlockTrace.new [] with
            | none => intro h; exact (Option.some.inj h).symm
            | some out =>
              obtain ⟨fac2, tr2, log2⟩ := out
              dsimp only
              cases hfin : finalize_block_execution bidder tr2
                  (feeRecipientBalanceDiff (bal.getD 0) (bal.getD 0)) with
              | mk should tr3 =>
                cases should with
                | false => intro h; exact (Option.some.inj h).symm
                | true =>
                  dsimp only
                  cases env.finalize with
                  | error e => intro h; exact (Option.some.inj h).symm
                  | ok fb => intro h; exact (Option.some.inj h).symm

/-- Whenever a build hands a profit signal to the bid decision, that signal
is the clamped difference of the fee-recipient balance against itself:
both reads query the same immutable parent snapshot. -/
theorem build_profit_signal (s : PreconfBuilderContext) (env : Env)
    (bidder : Nat → Bool) :
    ∀ p, (s.build_block env bidder).obs.profit_signal = some p →
      ∃ v : Nat, p = feeRecipientBalanceDiff v v := by
  intro p
  unfold PreconfBuilderContext.build_block
  cases env.health_check with
  | some e => intro h; simp at h
  | none =>
    dsimp only
    cases env.history_view with
    | some e => intro h; simp at h
    | none =>
      dsimp only
      cases env.account_balance
          s.ctx.modify_use_suggested_fee_recipient_as_coinbase.attributes.suggested_fee_recipient with
      | error e => intro h; simp at h
      | ok bal =>
        dsimp only
        cases env.pre_block with
        | some e => intro h; simp at h
        | none =>
          dsimp only
          cases env.state_nonce with
          | error e => intro h; simp at h
          | ok n0 =>
            dsimp only
            cases hf : fillLoop env
                s.ctx.modify_use_suggested_fee_recipient_as_coinbase.block_env.basefee
                s.config.build_duration_deadline_ms 10 0
                (DummyOrderFactory.new s.config.dummy_signer
                  s.ctx.modify_use_suggested_fee_recipient_as_coinbase.chain_id n0
                  s.ctx.modify_use_suggested_fee_recipient_as_coinbase.block_env.coinbase)
                BuiltBlockTrace.new [] with
            | none => intro h; simp at h
            | some out =>
              obtain ⟨fac2, tr2, log2⟩ := out
              dsimp only
              cases hfin : finalize_block_execution bidder tr2
                  (feeRecipientBalanceDiff (bal.getD 0) (bal.getD 0)) with
              | mk should tr3 =>
                cases should with
                | false =>
                  intro h
                  exact ⟨bal.getD 0, (Option.some.inj h).symm⟩
                | true =>
                  dsimp only
                  cases env.finalize with
                  | error e =>
                    intro h
                    exact ⟨bal.getD 0, (Option.some.inj h).symm⟩
                  | ok fb =>
                    intro h
                    exact ⟨bal.getD 0, (Option.some.inj h).symm⟩

/-- The attempt log of a build is empty (when the loop was never reached,
or aborted) or is exactly the log of one fill-loop run with budget 10,
starting at iteration 0 from the live-state nonce. -/
theorem build_attempt_log (s : PreconfBuilderContext) (env : Env)
    (bidder : Nat → Bool) :
    (s.build_block env bidder).obs.attempt_log = [] ∨
    ∃ n0 out, env.state_nonce = Except.ok n0 ∧
      fillLoop env
        s.ctx.modify_use_suggested_fee_recipient_as_coinbase.block_env.basefee
        s.config.build_duration_deadline_ms 10 0
        (DummyOrderFactory.new s.config.dummy_signer
          s.ctx.modify_use_suggested_fee_recipient_as_coinbase.chain_id n0
          s.ctx.modify_use_suggested_fee_recipient_as_coinbase.block_env.coinbase)
        BuiltBlockTrace.new [] = some out ∧
      (s.build_block env bidder).obs.attempt_log = out.2.2 := by
  unfold PreconfBuilderContext.build_block
  cases env.health_check with
  | some e => exact Or.inl rfl
  | none =>
    dsimp only
    cases env.history_view with
    | some e => exact Or.inl rfl
    | none =>
      dsimp only
      cases env.account_balance
          s.ctx.modify_use_suggested_fee_recipient_as_coinbase.attributes.suggested_fee_recipient with
      | error e => exact Or.inl rfl
      | ok bal =>
        dsimp only
        cases env.pre_block with
        | some e => exact Or.inl rfl
        | none =>
          dsimp only
          cases hn : env.state_nonce with
          | error e => exact Or.inl rfl
          | ok n0 =>
            dsimp only
            cases hf : fillLoop env
                s.ctx.modify_use_suggested_fee_recipient_as_coinbase.block_env.basefee
                s.config.build_duration_deadline_ms 10 0
                (DummyOrderFactory.new s.config.dummy_signer
                  s.ctx.modify_use_suggested_fee_recipient_as_coinbase.chain_id n0
                  s.ctx.modify_use_suggested_fee_recipient_as_coinbase.block_env.coinbase)
                BuiltBlockTrace.new [] with
            | none => exact Or.inl rfl
            | some out =>
              obtain ⟨fac2, tr2, log2⟩ := out
              dsimp only
              cases hfin : finalize_block_execution bidder tr2
                  (feeRecipientBalanceDiff (bal.getD 0) (bal.getD 0)) with
              | mk should tr3 =>
                cases should with
                | false =>
                  exact Or.inr ⟨n0, (fac2, tr2, log2), rfl, hf, rfl⟩
                | true =>
                  dsimp only
                  cases env.finalize with
                  | error e =>
                    exact Or.inr ⟨n0, (fac2, tr2, log2), rfl, hf, rfl⟩
                  | ok fb =>
                    exact Or.inr ⟨n0, (fac2, tr2, log2), rfl, hf, rfl⟩

/-- Length of the successive-nonce list. -/
theorem noncesFrom_length : ∀ (k n : Nat), (noncesFrom n k).length = k := by
  intro k
  induction k with
  | zero => intro n; rfl
  | succ k2 ih =>
    intro n
    simp only [noncesFrom, List.length_cons, ih]

/-- C10: build_block never mutates the stored base block-building context:
the coinbase normalization is applied to a per-call clone only, so the
orchestrator field `ctx` is identical before and after every call,
whatever the outcome. -/
theorem c10_ctx_frame (s : PreconfBuilderContext) (env : Env)
    (bidder : Nat → Bool) :
    (s.build_block env bidder).post.ctx = s.ctx := by
  unfold PreconfBuilderContext.build_block
  cases env.health_check with
  | some e => rfl
  | none =>
    dsimp only
    cases env.history_view with
    | some e => rfl
    | none =>
      dsimp only
      cases env.account_balance
          s.ctx.modify_use_suggested_fee_recipient_as_coinbase.attributes.suggested_fee_recipient with
      | error e => rfl
      | ok bal =>
        dsimp only
        cases env.pre_block with
        | some e => rfl
        | none =>
          dsimp only
          cases env.state_nonce with
          | error e => rfl
          | ok n0 =>
            dsimp only
            cases hf : fillLoop env
                s.ctx.modify_use_suggested_fee_recipient_as_coinbase.block_env.basefee
                s.config.build_duration_deadline_ms 10 0
                (DummyOrderFactory.new s.config.dummy_signer
                  s.ctx.modify_use_suggested_fee_recipient_as_coinbase.chain_id n0
                  s.ctx.modify_use_suggested_fee_recipient_as_coinbase.block_env.coinbase)
                BuiltBlockTrace.new [] with
            | none => rfl
            | some out =>
              obtain ⟨fac2, tr2, log2⟩ := out
              dsimp only
              cases hfin : finalize_block_execution bidder tr2
                  (feeRecipientBalanceDiff (bal.getD 0) (bal.getD 0)) with
              | mk should tr3 =>
                cases should with
                | false => rfl
                | true =>
                  dsimp only
                  cases env.finalize with
                  | error e => rfl
                  | ok fb => rfl

/-- C3: the profit signal equals post-balance minus pre-balance when the
difference is non-negative and zero when the subtraction would underflow,
and it is never negative; moreover the signal a build actually hands to
the bid decision is the clamped difference of the two balance reads, which
query the same immutable parent snapshot. -/
theorem c3_profit_clamp :
    (∀ pre post : Nat,
      (pre ≤ post → feeRecipientBalanceDiff pre post = post - pre) ∧
      (post < pre → feeRecipientBalanceDiff pre post = 0) ∧
      (0 : Int) ≤ (feeRecipientBalanceDiff pre post : Int)) ∧
    (∀ (s : PreconfBuilderContext) (env : Env) (bidder : Nat → Bool) (p : Nat),
      (s.build_block env bidder).obs.profit_signal = some p →
      ∃ v : Nat, p = feeRecipientBalanceDiff v v) := by
  constructor
  · intro pre post
    refine ⟨?_, ?_, ?_⟩
    · intro h
      unfold feeRecipientBalanceDiff
      rw [if_pos h]
      rfl
    · intro h
      unfold feeRecipientBalanceDiff
      rw [if_neg (by omega)]
      rfl
    · exact Int.natCast_nonneg _
  · exact fun s env bidder => build_profit_signal s env bidder

/-- Witness for C3 at concrete balances and one concrete build. -/
theorem c3_profit_clamp_witness :
    feeRecipientBalanceDiff 3 5 = 5 - 3 ∧ feeRecipientBalanceDiff 5 3 = 0 ∧
    ∃ v, 0 = feeRecipientBalanceDiff v v := by
  refine ⟨(c3_profit_clamp.1 3 5).1 (by decide),
    (c3_profit_clamp.1 5 3).2.1 (by decide),
    c3_profit_clamp.2 sFresh envOk bidFalse 0 ?_⟩
  rfl

/-- C9: every adapter invocation constructs a fresh orchestrator holding no
cache, so every build performed through the adapter seeds its state view
with the default empty cache. -/
theorem c9_fresh_orchestrator (ctx0 : BlockBuildingContext) (name : String)
    (config : PreconfBuilderConfig) (env : Env) (bidder : Nat → Bool) :
    (PreconfBuilderContext.new name ctx0 config).cached_reads = none ∧
    ∀ c, ((PreconfBuilderContext.new name ctx0 config).build_block env
        bidder).obs.seeded_cache = some c →
      c = default := by
  refine ⟨rfl, fun c hc => ?_⟩
  have h := build_seeded_cache (PreconfBuilderContext.new name ctx0 config)
    env bidder c hc
  simpa [PreconfBuilderContext.new] using h

/-- Witness for C9: the concrete fresh orchestrator seeds the default
cache. -/
theorem c9_fresh_orchestrator_witness :
    (sFresh.build_block envOk bidFalse).obs.seeded_cache =
      some { tag := 0 } ∧
    ({ tag := 0 } : CachedReads) = default := by
  constructor
  · rfl
  · exact (c9_fresh_orchestrator ctxA nameB cfgA envOk bidFalse).2
      { tag := 0 } rfl

/-- C4: within one build, the filler nonce used by the transaction
generated in attempt `i` (0-indexed over the attempts actually performed)
equals the starting nonce read from live state plus `i`, for every `i` in
the attempted range (stated below the u64 wraparound bound), because the
nonce is advanced exactly once per attempted transaction regardless of
commit success. -/
theorem c4_nonce_monotone (s : PreconfBuilderContext) (env : Env)
    (bidder : Nat → Bool) (start : Nat)
    (hn : env.state_nonce = Except.ok start) (i : Nat)
    (hi : i < (s.build_block env bidder).obs.attempt_log.length)
    (hw : start + i < 2 ^ 64) :
    ((s.build_block env bidder).obs.attempt_log.map AttemptRecord.nonce).getD i 0 =
      start + i := by
  rcases build_attempt_log s env bidder with hempty | ⟨n0, out, hn0, hf, hlog⟩
  · rw [hempty] at hi
    simp at hi
  · rw [hn0] at hn
    injection hn with hn
    subst hn
    rw [hlog] at hi ⊢
    obtain ⟨k, hk, hmap⟩ := fillLoop_nonce_log env
      s.ctx.modify_use_suggested_fee_recipient_as_coinbase.block_env.basefee
      s.config.build_duration_deadline_ms 10 0
      (DummyOrderFactory.new s.config.dummy_signer
        s.ctx.modify_use_suggested_fee_recipient_as_coinbase.chain_id n0
        s.ctx.modify_use_suggested_fee_recipient_as_coinbase.block_env.coinbase)
      BuiltBlockTrace.new [] out hf
    simp only [List.map_nil, List.nil_append, DummyOrderFactory.new] at hmap
    rw [hmap]
    have hik : i < k := by
      have hlenmap : (out.2.2.map AttemptRecord.nonce).length = k := by
        rw [hmap, noncesFrom_length]
      simp at hlenmap
      omega
    exact noncesFrom_getD k n0 i hik hw

/-- Witness for C4 at attempt 2 of a concrete build starting from nonce 3. -/
theorem c4_nonce_monotone_witness :
    ((sFresh.build_block envOk bidFalse).obs.attempt_log.map
      AttemptRecord.nonce).getD 2 0 = 3 + 2 :=
  c4_nonce_monotone sFresh envOk bidFalse 3 rfl 2 (by decide) (by decide)

/-- C5: the number of filler-transaction attempts is at most 10; when a
deadline is configured, every attempt that is performed passed the
deadline check at the top of its iteration, so no attempt starts after
the deadline has elapsed; and with a 0 ms deadline the loop performs zero
attempts as soon as the clock has advanced at all by the first check. -/
theorem c5_attempt_bounds (s : PreconfBuilderContext) (env : Env)
    (bidder : Nat → Bool) :
    ((s.build_block env bidder).obs.attempt_log.length ≤ 10) ∧
    (∀ d, s.config.build_duration_deadline_ms = some d →
      ∀ i, i < (s.build_block env bidder).obs.attempt_log.length →
        env.elapsed i ≤ d * 1000000) ∧
    (s.config.build_duration_deadline_ms = some 0 → 0 < env.elapsed 0 →
      (s.build_block env bidder).obs.attempt_log = []) := by
  rcases build_attempt_log s env bidder with hempty | ⟨n0, out, hn0, hf, hlog⟩
  · rw [hempty]
    refine ⟨by simp, ?_, fun _ _ => rfl⟩
    intro d hd i hi
    simp at hi
  · rw [hlog]
    have hlen : out.2.2.length ≤ 10 := by
      have h := fillLoop_log_len env
        s.ctx.modify_use_suggested_fee_recipient_as_coinbase.block_env.basefee
        s.config.build_duration_deadline_ms 10 0
        (DummyOrderFactory.new s.config.dummy_signer
          s.ctx.modify_use_suggested_fee_recipient_as_coinbase.chain_id n0
          s.ctx.modify_use_suggested_fee_recipient_as_coinbase.block_env.coinbase)
        BuiltBlockTrace.new [] out hf
      simpa using h
    have hdl : ∀ d, s.config.build_duration_deadline_ms = some d →
        ∀ i, i < out.2.2.length → env.elapsed i ≤ d * 1000000 := by
      intro d hd i hi
      rw [hd] at hf
      have h := fillLoop_deadline env
        s.ctx.modify_use_suggested_fee_recipient_as_coinbase.block_env.basefee d
        10 0
        (DummyOrderFactory.new s.config.dummy_signer
          s.ctx.modify_use_suggested_fee_recipient_as_coinbase.chain_id n0
          s.ctx.modify_use_suggested_fee_recipient_as_coinbase.block_env.coinbase)
        BuiltBlockTrace.new [] out hf i (by simpa using hi)
      simpa using h
    refine ⟨hlen, hdl, ?_⟩
    intro h0 hpos
    cases hnil : out.2.2 with
    | nil => rfl
    | cons a l =>
      exfalso
      have h1 : 0 < out.2.2.length := by
        rw [hnil]
        simp
      have h2 := hdl 0 h0 0 h1
      simp at h2
      omega

/-- Witness for C5: the 5 ms deadline run performs at most 10 attempts and
its first attempt started within the deadline; the 0 ms deadline run
performs zero attempts. -/
theorem c5_attempt_bounds_witness :
    (sDl5.build_block envOk bidFalse).obs.attempt_log.length ≤ 10 ∧
    envOk.elapsed 0 ≤ 5 * 1000000 ∧
    (sZero.build_block envOk bidFalse).obs.attempt_log = [] := by
  refine ⟨(c5_attempt_bounds sDl5 envOk bidFalse).1, ?_,
    (c5_attempt_bounds sZero envOk bidFalse).2.2 rfl (by decide)⟩
  exact (c5_attempt_bounds sDl5 envOk bidFalse).2.1 5 rfl 0 (by decide)

/-- C1 counterexample: an orchestrator holding cache instance 5 before a
build in which the bid decision declines does return the explicit
"no block produced" result, but afterwards it holds no cache at all: the
cache taken at build start is not restored on the early-return rejection
path, so the held instance is permanently lost, contradicting the claim
that the cache after the call is exactly the cache held before it. -/
theorem c1_counterexample :
    sHeld.cached_reads = some { tag := 5 } ∧
    (sHeld.build_block envOk bidFalse).result = BuildResult.ok none ∧
    (sHeld.build_block envOk bidFalse).post.cached_reads = none ∧
    (sHeld.build_block envOk bidFalse).post.cached_reads ≠ sHeld.cached_reads := by
  refine ⟨rfl, rfl, rfl, ?_⟩
  intro h
  rw [show (sHeld.build_block envOk bidFalse).post.cached_reads = none from rfl] at h
  rw [show sHeld.cached_reads = some { tag := 5 } from rfl] at h
  cases h

/-- C1 (amended): when the bid decision declines, the build returns the
explicit "no block produced" result, and the orchestrator afterwards holds
no cache: the cache is taken at build start and is restored only on the
successful-finalize path, so a previously held instance is lost on the
rejection path.  The decline hypothesis is `bidder 0 = false` because the
profit signal of a completed fill phase is always zero (both balance reads
query the same parent snapshot). -/
theorem c1_amended_rejection (s : PreconfBuilderContext) (env : Env)
    (bidder : Nat → Bool)
    (h1 : env.health_check = none) (h2 : env.history_view = none)
    (h3 : ∃ v, env.account_balance s.ctx.attributes.suggested_fee_recipient =
      Except.ok v)
    (h4 : env.pre_block = none)
    (h5 : ∃ n0, env.state_nonce = Except.ok n0)
    (h6 : s.ctx.block_env.basefee * 21000 + 5000 < 2 ^ 64)
    (h7 : bidder 0 = false) :
    (s.build_block env bidder).result = BuildResult.ok none ∧
    (s.build_block env bidder).post.cached_reads = none := by
  obtain ⟨v, hv⟩ := h3
  obtain ⟨n0, hn0⟩ := h5
  have hv2 : env.account_balance
      s.ctx.modify_use_suggested_fee_recipient_as_coinbase.attributes.suggested_fee_recipient =
      Except.ok v := by
    rw [modify_coinbase_attributes]
    exact hv
  have hbf : s.ctx.modify_use_suggested_fee_recipient_as_coinbase.block_env.basefee *
      21000 + 5000 < 2 ^ 64 := by
    rw [modify_coinbase_basefee]
    exact h6
  obtain ⟨out, hout⟩ := fillLoop_total env
    s.ctx.modify_use_suggested_fee_recipient_as_coinbase.block_env.basefee
    s.config.build_duration_deadline_ms hbf 10 0
    (DummyOrderFactory.new s.config.dummy_signer
      s.ctx.modify_use_suggested_fee_recipient_as_coinbase.chain_id n0
      s.ctx.modify_use_suggested_fee_recipient_as_coinbase.block_env.coinbase)
    BuiltBlockTrace.new []
  obtain ⟨fac2, tr2, log2⟩ := out
  unfold PreconfBuilderContext.build_block
  rw [h1]
  dsimp only
  rw [h2]
  dsimp only
  rw [hv2]
  dsimp only
  rw [h4]
  dsimp only
  rw [hn0]
  dsimp only
  rw [hout]
  dsimp only
  rw [feeRecipientBalanceDiff_self]
  unfold finalize_block_execution
  rw [h7]
  rw [if_neg (by simp)]
  exact ⟨rfl, rfl⟩

/-- Witness for the amended C1 at the concrete cache-holding orchestrator. -/
theorem c1_amended_rejection_witness :
    (sHeld.build_block envOk bidFalse).result = BuildResult.ok none ∧
    (sHeld.build_block envOk bidFalse).post.cached_reads = none :=
  c1_amended_rejection sHeld envOk bidFalse rfl rfl ⟨some 1000, rfl⟩ rfl
    ⟨3, rfl⟩ (by decide) rfl

/-- C2 counterexample: with no deadline, every filler commit succeeding, a
bid oracle that accepts exactly the positive profit signals, and a fee
recipient (address 5) distinct from the filler sender (address 77), the
build returns the "no block produced" result instead of a produced block:
the profit signal is always zero, because both fee-recipient balance reads
query the same immutable parent snapshot and the zero-tip fillers
contribute nothing, so an accept-positive oracle declines. -/
theorem c2_counterexample :
    cfgA.build_duration_deadline_ms = none ∧
    bidPos 1 = true ∧
    bidPos 0 = false ∧
    ctxA.attributes.suggested_fee_recipient ≠ sigD.address ∧
    (sFresh.build_block envOk bidPos).result = BuildResult.ok none := by
  refine ⟨rfl, rfl, rfl, by decide, rfl⟩

/-- C2 (amended): with no deadline, all 10 commits succeeding, the build
path healthy and the bid oracle accepting the zero profit signal, the
build returns a produced block whose trace contains exactly 10 included
orders and whose trace profit value is zero (not strictly positive): the
profit signal the code computes is always zero. -/
theorem c2_amended_scenario_a (s : PreconfBuilderContext) (env : Env)
    (bidder : Nat → Bool)
    (hd : s.config.build_duration_deadline_ms = none)
    (hcommit : ∀ (j : Nat) (tx : SignedTx), ∃ r, env.commit j tx = Except.ok r)
    (h1 : env.health_check = none) (h2 : env.history_view = none)
    (h3 : ∃ v, env.account_balance s.ctx.attributes.suggested_fee_recipient =
      Except.ok v)
    (h4 : env.pre_block = none)
    (h5 : ∃ n0, env.state_nonce = Except.ok n0)
    (h6 : s.ctx.block_env.basefee * 21000 + 5000 < 2 ^ 64)
    (hfin : ∃ fb, env.finalize = Except.ok fb)
    (_hdistinct : s.ctx.attributes.suggested_fee_recipient ≠
      s.config.dummy_signer.address)
    (hbid : bidder 0 = true) :
    ∃ b, (s.build_block env bidder).result = BuildResult.ok (some b) ∧
      b.trace.included_orders.length = 10 ∧ b.trace.bid_value = 0 := by
  obtain ⟨v, hv⟩ := h3
  obtain ⟨n0, hn0⟩ := h5
  obtain ⟨fb, hfb⟩ := hfin
  have hv2 : env.account_balance
      s.ctx.modify_use_suggested_fee_recipient_as_coinbase.attributes.suggested_fee_recipient =
      Except.ok v := by
    rw [modify_coinbase_attributes]
    exact hv
  have hbf : s.ctx.modify_use_suggested_fee_recipient_as_coinbase.block_env.basefee *
      21000 + 5000 < 2 ^ 64 := by
    rw [modify_coinbase_basefee]
    exact h6
  obtain ⟨fac2, tr2, log2, hout, hlen⟩ := fillLoop_all_ok env
    s.ctx.modify_use_suggested_fee_recipient_as_coinbase.block_env.basefee
    hbf hcommit 10 0
    (DummyOrderFactory.new s.config.dummy_signer
      s.ctx.modify_use_suggested_fee_recipient_as_coinbase.chain_id n0
      s.ctx.modify_use_suggested_fee_recipient_as_coinbase.block_env.coinbase)
    BuiltBlockTrace.new []
  unfold PreconfBuilderContext.build_block
  rw [h1]
  dsimp only
  rw [h2]
  dsimp only
  rw [hv2]
  dsimp only
  rw [h4]
  dsimp only
  rw [hn0]
  dsimp only
  rw [hd, hout]
  dsimp only
  rw [feeRecipientBalanceDiff_self]
  unfold finalize_block_execution
  rw [hbid]
  rw [if_pos rfl]
  dsimp only
  rw [hfb]
  dsimp only
  refine ⟨_, rfl, ?_, rfl⟩
  simp [BuiltBlockTrace.new] at hlen
  simpa using hlen

/-- Witness for the amended C2: the all-accepting oracle on the healthy
environment yields a 10-order block with zero trace profit. -/
theorem c2_amended_scenario_a_witness :
    bidTrue 0 = true ∧
    ∃ b, (sFresh.build_block envOk bidTrue).result = BuildResult.ok (some b) ∧
      b.trace.included_orders.length = 10 ∧ b.trace.bid_value = 0 :=
  ⟨rfl, c2_amended_scenario_a sFresh envOk bidTrue rfl
    (fun j tx => ⟨{ gas_used := 21000 }, rfl⟩) rfl rfl ⟨some 1000, rfl⟩ rfl
    ⟨3, rfl⟩ (by decide) ⟨_, rfl⟩ (by decide) rfl⟩

/-- C6: when the build ends in an error whose message carries the
consistent-view pattern, the adapter sets the cancellation signal exactly
once and pushes nothing to the sink; no other outcome class sets the
signal. -/
theorem c6_cancel_on_consistent_view (ctx0 : BlockBuildingContext)
    (name : String) (config : PreconfBuilderConfig) (env : Env)
    (bidder : Nat → Bool) (is_health_error : Err → Bool) (r : RunResult)
    (hr : run_preconf_builder ctx0 name config env bidder is_health_error =
      some r) :
    (∀ e, ((PreconfBuilderContext.new name ctx0 config).build_block env
        bidder).result = BuildResult.errored e →
      (strContains e.msg consistentViewPat = true →
        r.cancel_count = 1 ∧ r.pushed = []) ∧
      (strContains e.msg consistentViewPat = false → r.cancel_count = 0)) ∧
    (∀ ob, ((PreconfBuilderContext.new name ctx0 config).build_block env
        bidder).result = BuildResult.ok ob →
      r.cancel_count = 0) := by
  unfold run_preconf_builder at hr
  dsimp only at hr
  split at hr
  case h_1 => cases hr
  case h_2 block heq =>
    injection hr with hr
    subst hr
    constructor
    · intro e he
      rw [heq] at he
      cases he
    · intro ob hob
      rfl
  case h_3 heq =>
    injection hr with hr
    subst hr
    constructor
    · intro e he
      rw [heq] at he
      cases he
    · intro ob hob
      rfl
  case h_4 e0 heq =>
    constructor
    · intro e he
      rw [heq] at he
      injection he with he
      subst he
      split at hr
      case isTrue hcv =>
        injection hr with hr
        subst hr
        refine ⟨fun _ => ⟨rfl, rfl⟩, fun hfalse => ?_⟩
        rw [hcv] at hfalse
        cases hfalse
      case isFalse hcv =>
        have hcv2 : strContains e0.msg consistentViewPat = false := by
          cases h : strContains e0.msg consistentViewPat
          · rfl
          · exact absurd h hcv
        refine ⟨fun htrue => ?_, fun _ => ?_⟩
        · rw [hcv2] at htrue
          cases htrue
        · split at hr
          · split at hr
            · injection hr with hr
              subst hr
              rfl
            · injection hr with hr
              subst hr
              rfl
          · injection hr with hr
            subst hr
            rfl
    · intro ob hob
      rw [heq] at hob
      cases hob

/-- Witness for C6: a consistent-view health-check failure makes the
concrete adapter run cancel once and push nothing. -/
theorem c6_cancel_on_consistent_view_witness :
    run_preconf_builder ctxA nameB cfgA envCV bidFalse predFalse =
      some rCV ∧
    rCV.cancel_count = 1 ∧ rCV.pushed = [] := by
  refine ⟨by decide, ?_⟩
  exact ((c6_cancel_on_consistent_view ctxA nameB cfgA envCV bidFalse
    predFalse rCV (by decide)).1 errCV rfl).1 (by decide)

/-- C7 counterexample: an error whose message contains the profit-too-low
pattern but also the consistent-view pattern makes the adapter cancel the
slot, contradicting the claim that every error containing "Profit too low"
causes no cancellation: the consistent-view classification is checked
first. -/
theorem c7_counterexample :
    strContains errBoth.msg profitTooLowPat = true ∧
    run_preconf_builder ctxA nameB cfgA envBoth bidFalse predFalse =
      some rCV ∧
    rCV.cancel_count = 1 := by
  refine ⟨by decide, by decide, rfl⟩

/-- C7 (amended): a "not profitable" outcome — the Ok(None) result, or an
error whose message contains the profit-too-low pattern but not the
consistent-view pattern — causes no cancellation, no sink push and no
warn- or error-level adapter log entry. -/
theorem c7_amended_silent_skip (ctx0 : BlockBuildingContext) (name : String)
    (config : PreconfBuilderConfig) (env : Env) (bidder : Nat → Bool)
    (is_health_error : Err → Bool) (r : RunResult)
    (hr : run_preconf_builder ctx0 name config env bidder is_health_error =
      some r) :
    (((PreconfBuilderContext.new name ctx0 config).build_block env
        bidder).result = BuildResult.ok none →
      r.cancel_count = 0 ∧ r.pushed = [] ∧
      ∀ ev ∈ r.logs, ev.level ≠ LogLevel.warnLvl ∧
        ev.level ≠ LogLevel.errorLvl) ∧
    (∀ e, ((PreconfBuilderContext.new name ctx0 config).build_block env
        bidder).result = BuildResult.errored e →
      strContains e.msg profitTooLowPat = true →
      strContains e.msg consistentViewPat = false →
      r.cancel_count = 0 ∧ r.pushed = [] ∧
      ∀ ev ∈ r.logs, ev.level ≠ LogLevel.warnLvl ∧
        ev.level ≠ LogLevel.errorLvl) := by
  unfold run_preconf_builder at hr
  dsimp only at hr
  split at hr
  case h_1 => cases hr
  case h_2 block heq =>
    constructor
    · intro h
      rw [heq] at h
      simp at h
    · intro e he
      rw [heq] at he
      cases he
  case h_3 heq =>
    injection hr with hr
    subst hr
    constructor
    · intro _
      refine ⟨rfl, rfl, ?_⟩
      intro ev hev
      cases hev
    · intro e he
      rw [heq] at he
      cases he
  case h_4 e0 heq =>
    constructor
    · intro h
      rw [heq] at h
      cases h
    · intro e he htoolow hcv
      rw [heq] at he
      injection he with he
      subst he
      split at hr
      case isTrue hc =>
        rw [hcv] at hc
        cases hc
      case isFalse hc =>
        split at hr
        case isTrue hpl =>
          rw [htoolow] at hpl
          simp at hpl
        case isFalse hpl =>
          injection hr with hr
          subst hr
          refine ⟨rfl, rfl, ?_⟩
          intro ev hev
          cases hev

/-- Witness for the amended C7: a pure profit-too-low error makes the
concrete adapter run do nothing at all. -/
theorem c7_amended_silent_skip_witness :
    run_preconf_builder ctxA nameB cfgA envPL bidFalse predFalse =
      some { pushed := [], cancel_count := 0, logs := [] } ∧
    (0 : Nat) = 0 ∧ ([] : List Block) = [] := by
  refine ⟨by decide, ?_, ?_⟩
  · exact ((c7_amended_silent_skip ctxA nameB cfgA envPL bidFalse predFalse
      { pushed := [], cancel_count := 0, logs := [] } (by decide)).2 errPL rfl
      (by decide) (by decide)).1
  · exact ((c7_amended_silent_skip ctxA nameB cfgA envPL bidFalse predFalse
      { pushed := [], cancel_count := 0, logs := [] } (by decide)).2 errPL rfl
      (by decide) (by decide)).2.1

/-- C8 counterexample: at basefee 2 ^ 64 the gas-limit heuristic does not
fit the u64 gas-limit field, the checked conversion aborts, and no signed
transaction is produced, contradicting the claim quantified over every
basefee. -/
theorem c8_counterexample : facBig.generate_tx (2 ^ 64) = none := by decide

/-- C8 (amended): for every basefee whose gas-limit heuristic fits u64,
the filler generator produces a signed EIP-1559 transaction whose gas
limit equals basefee * 21000 + 5000, whose max fee per gas equals the
basefee, whose priority fee is zero and whose value is the fixed
2 * 10^15 wei transfer; the fields are a pure function of the factory
state and the basefee. -/
theorem c8_amended_generate_tx (f : DummyOrderFactory) (b : Nat)
    (h : b * 21000 + 5000 < 2 ^ 64) :
    f.generate_tx b = some
      { tx := { chain_id := f.chain_id, nonce := f.nonce,
                gas_limit := b * 21000 + 5000, max_fee_per_gas := b,
                max_priority_fee_per_gas := 0, to_addr := f.receiver,
                value := 2000000000000000 },
        sender := f.signer.address } :=
  generate_tx_of_fits f b h

/-- Witness for the amended C8 at basefee 7. -/
theorem c8_amended_generate_tx_witness :
    facBig.generate_tx 7 = some
      { tx := { chain_id := 1, nonce := 0, gas_limit := 7 * 21000 + 5000,
                max_fee_per_gas := 7, max_priority_fee_per_gas := 0,
                to_addr := 9, value := 2000000000000000 },
        sender := 77 } :=
  c8_amended_generate_tx facBig 7 (by decide)
